import Mathlib

/-!
Shallow embedding of the iris-session pallet
(`src/bin/node-template/pallets/iris-session/src/lib.rs`).

Storage items become fields of `Iris.IrisState`; `ValueQuery` maps become
total functions with the default value.  Dispatchable calls and internal
helpers become state-passing functions returning the mutated state together
with a `DispatchResult` (`Except Err Unit`).  Following the source, a call
that fails after having already mutated storage returns the mutated state:
rollback, if any, belongs to the host dispatcher, not to the pallet.
Machine integers (`u32` counters, reward points) are modelled as `Nat`;
`saturating_sub(1)` is `Nat` subtraction, which already saturates at zero.
-/

set_option linter.unusedSectionVars false

namespace Iris

/-- The pallet's `Error` enum, plus `Collaborator`, which stands for an error
propagated from the external `pallet_iris_assets` collaborator (modelled from
the spec: "propagates ledger-collaborator errors"). -/
inductive Err
  | TooLowValidatorCount
  | Duplicate
  | ValidatorNotApproved
  | BadOrigin
  | CantCreateRequest
  | RequestTimeout
  | RequestFailed
  | NoSuchOwnedContent
  | InsufficientBalance
  | AlreadyACandidate
  | AlreadyPinned
  | NotACandidate
  | Collaborator
deriving DecidableEq, Repr

/-- The pallet's `Event` enum (fields that matter to the claims). -/
inductive Ev (α β : Type)
  | ValidatorAdditionInitiated (who : α)
  | ValidatorRemovalInitiated (who : α)
  | PublishedIdentity (who : α)
  | RequestJoinStoragePoolSuccess (who : α) (asset : β)
deriving DecidableEq

/-- `EraRewardPoints` struct: `total` and the per-account `individual` map.
The `BTreeMap` is modelled as an association list with at most one entry per
key, which is all `entry(..).or_default() += 1` and summation depend on. -/
structure EraRewardPoints (α : Type) where
  total : Nat
  individual : List (α × Nat)
deriving DecidableEq

/-- Decidable equality of dispatch results. -/
instance : DecidableEq (Except Err Unit) := fun a b =>
  match a, b with
  | Except.ok (), Except.ok () => isTrue rfl
  | Except.error e₁, Except.error e₂ =>
      if h : e₁ = e₂ then isTrue (by rw [h])
      else isFalse (fun hc => h (by injection hc))
  | Except.ok _, Except.error _ => isFalse (fun hc => Except.noConfusion hc)
  | Except.error _, Except.ok _ => isFalse (fun hc => Except.noConfusion hc)

/-- Point update of a one-argument `ValueQuery` storage map. -/
def upd {κ ν : Type} [DecidableEq κ] (f : κ → ν) (k : κ) (x : ν) : κ → ν :=
  fun k' => if k' = k then x else f k'

/-- Point update of a two-argument (double) storage map. -/
def upd2 {κ₁ κ₂ ν : Type} [DecidableEq κ₁] [DecidableEq κ₂]
    (f : κ₁ → κ₂ → ν) (k₁ : κ₁) (k₂ : κ₂) (x : ν) : κ₁ → κ₂ → ν :=
  fun k₁' k₂' => if k₁' = k₁ ∧ k₂' = k₂ then x else f k₁' k₂'

/-- The pallet's storage, one field per storage item used by the claims.
`queuedKeys` records which asset ids have an explicit `QueuedStorageProviders`
entry, mirroring `contains_key` (a `ValueQuery` map distinguishes an absent
key from a stored empty vector). -/
structure IrisState (α β : Type) where
  validators : List α
  approvedValidators : List α
  offlineValidators : List α
  unproductiveSessions : α → Nat
  erasRewardPoints : Nat → β → EraRewardPoints α
  sessionParticipation : Nat → List α
  queuedKeys : List β
  queuedStorageProviders : β → List α
  storageProviders : β → List α
  pinners : β → List α
  currentEra : Option Nat
  activeEra : Option Nat
  events : List (Ev α β)

variable {α β : Type} [DecidableEq α] [DecidableEq β]

/-- State with every storage item at its default value. -/
def emptyState : IrisState α β where
  validators := []
  approvedValidators := []
  offlineValidators := []
  unproductiveSessions := fun _ => 0
  erasRewardPoints := fun _ _ => ⟨0, []⟩
  sessionParticipation := fun _ => []
  queuedKeys := []
  queuedStorageProviders := fun _ => []
  storageProviders := fun _ => []
  pinners := fun _ => []
  currentEra := none
  activeEra := none
  events := []

/-- `initialize_validators`: genesis puts the given list into both
`Validators` and `ApprovedValidators` (the `assert!`s — at least two entries,
not yet initialized — are preconditions of the genesis build). -/
def initialize_validators (g : List α) (s : IrisState α β) : IrisState α β :=
  { s with validators := g, approvedValidators := g }

/-- The genesis state built from an initial validator list. -/
def genesisState (g : List α) : IrisState α β :=
  initialize_validators g emptyState

/-- `do_add_validator`: reject a duplicate, else push to `Validators`,
zero the `UnproductiveSessions` counter and emit the addition event. -/
def do_add_validator (validator_id : α) (s : IrisState α β) :
    IrisState α β × Except Err Unit :=
  if validator_id ∈ s.validators then (s, Except.error Err.Duplicate)
  else
    ({ s with
        validators := s.validators ++ [validator_id],
        unproductiveSessions := upd s.unproductiveSessions validator_id 0,
        events := s.events ++ [Ev.ValidatorAdditionInitiated validator_id] },
      Except.ok ())

/-- `do_remove_validator`: reject with `TooLowValidatorCount` when
`len.saturating_sub(1) < MinAuthorities`, else retain all entries different
from the id and emit the removal event. -/
def do_remove_validator (minAuthorities : Nat) (validator_id : α)
    (s : IrisState α β) : IrisState α β × Except Err Unit :=
  if minAuthorities ≤ s.validators.length - 1 then
    ({ s with
        validators := s.validators.filter (fun v => v ≠ validator_id),
        events := s.events ++ [Ev.ValidatorRemovalInitiated validator_id] },
      Except.ok ())
  else (s, Except.error Err.TooLowValidatorCount)

/-- `approve_validator`: reject a duplicate, else push to
`ApprovedValidators`. -/
def approve_validator (validator_id : α) (s : IrisState α β) :
    IrisState α β × Except Err Unit :=
  if validator_id ∈ s.approvedValidators then (s, Except.error Err.Duplicate)
  else
    ({ s with approvedValidators := s.approvedValidators ++ [validator_id] },
      Except.ok ())

/-- `unapprove_validator`: the Rust function filters a local copy of the
approved list (`approved_set.retain(..)`) but never writes it back to the
`ApprovedValidators` storage item, so storage is left unchanged. -/
def unapprove_validator (validator_id : α) (s : IrisState α β) :
    IrisState α β × Except Err Unit :=
  let _approved_set := s.approvedValidators.filter (fun v => v ≠ validator_id)
  (s, Except.ok ())

/-- `add_validator` extrinsic body after the privileged-origin check:
`do_add_validator ? ; approve_validator ?`. -/
def add_validator (validator_id : α) (s : IrisState α β) :
    IrisState α β × Except Err Unit :=
  match do_add_validator validator_id s with
  | (s₁, Except.error e) => (s₁, Except.error e)
  | (s₁, Except.ok _) => approve_validator validator_id s₁

/-- `remove_validator` extrinsic body after the privileged-origin check:
`do_remove_validator ? ; unapprove_validator ?`. -/
def remove_validator (minAuthorities : Nat) (validator_id : α)
    (s : IrisState α β) : IrisState α β × Except Err Unit :=
  match do_remove_validator minAuthorities validator_id s with
  | (s₁, Except.error e) => (s₁, Except.error e)
  | (s₁, Except.ok _) => unapprove_validator validator_id s₁

/-- `add_validator_again` extrinsic body; `who` is the signed caller. -/
def add_validator_again (who validator_id : α) (s : IrisState α β) :
    IrisState α β × Except Err Unit :=
  if who ≠ validator_id then (s, Except.error Err.BadOrigin)
  else if validator_id ∉ s.approvedValidators then
    (s, Except.error Err.ValidatorNotApproved)
  else do_add_validator validator_id s

/-- `*era_rewards.individual.entry(k).or_default() += 1` on the assoc-list
model of the `BTreeMap`: bump the existing entry, or append `(k, 1)`. -/
def bumpEntry (k : α) : List (α × Nat) → List (α × Nat)
  | [] => [(k, 1)]
  | (a, n) :: rest =>
      if a = k then (a, n + 1) :: rest else (a, n) :: bumpEntry k rest

/-- One loop iteration of the reward bookkeeping: bump one account's entry
and the running total. -/
def bumpOne (k : α) (p : EraRewardPoints α) : EraRewardPoints α :=
  { total := p.total + 1, individual := bumpEntry k p.individual }

/-- The `for v in ... { individual += 1; total += 1 }` loop over a list of
accounts. -/
def bumpAll (ks : List α) (p : EraRewardPoints α) : EraRewardPoints α :=
  ks.foldl (fun q k => bumpOne k q) p

/-- `submit_ipfs_add_results` extrinsic body.  The call into
`pallet_iris_assets::submit_ipfs_add_results` is modelled from the spec
("propagates ledger-collaborator errors") by the `assetsOk` flag, the
collaborator's own storage being external to this pallet.  On success, if an
era is active every current validator is appended to `SessionParticipation`
and credited one point for the asset. -/
def submit_ipfs_add_results (assetsOk : Bool) (id : β) (s : IrisState α β) :
    IrisState α β × Except Err Unit :=
  if assetsOk then
    match s.activeEra with
    | some active_era =>
        ({ s with
            sessionParticipation :=
              upd s.sessionParticipation active_era
                (s.sessionParticipation active_era ++ s.validators),
            erasRewardPoints :=
              upd2 s.erasRewardPoints active_era id
                (bumpAll s.validators (s.erasRewardPoints active_era id)) },
          Except.ok ())
    | none => (s, Except.ok ())
  else (s, Except.error Err.Collaborator)

/-- `submit_ipfs_pin_result` extrinsic body: the pinner must be a queued
candidate and not already a pinner; it is appended to `Pinners`, and, if an
era is active, credited one point and appended to `SessionParticipation`. -/
def submit_ipfs_pin_result (asset_id : β) (pinner : α) (s : IrisState α β) :
    IrisState α β × Except Err Unit :=
  if pinner ∉ s.queuedStorageProviders asset_id then
    (s, Except.error Err.NotACandidate)
  else if pinner ∈ s.pinners asset_id then (s, Except.error Err.AlreadyPinned)
  else
    let s₁ :=
      { s with pinners := upd s.pinners asset_id (s.pinners asset_id ++ [pinner]) }
    match s₁.activeEra with
    | some active_era =>
        ({ s₁ with
            sessionParticipation :=
              upd s₁.sessionParticipation active_era
                (s₁.sessionParticipation active_era ++ [pinner]),
            erasRewardPoints :=
              upd2 s₁.erasRewardPoints active_era asset_id
                (bumpOne pinner (s₁.erasRewardPoints active_era asset_id)) },
          Except.ok ())
    | none => (s₁, Except.ok ())

/-- `submit_rpc_ready` extrinsic body: if an era is active, every current
storage provider of the asset is appended to `SessionParticipation` and
credited one point; otherwise nothing happens.  Always returns `Ok`. -/
def submit_rpc_ready (asset_id : β) (s : IrisState α β) :
    IrisState α β × Except Err Unit :=
  match s.activeEra with
  | some active_era =>
      ({ s with
          sessionParticipation :=
            upd s.sessionParticipation active_era
              (s.sessionParticipation active_era ++ s.storageProviders asset_id),
          erasRewardPoints :=
            upd2 s.erasRewardPoints active_era asset_id
              (bumpAll (s.storageProviders asset_id)
                (s.erasRewardPoints active_era asset_id)) },
        Except.ok ())
  | none => (s, Except.ok ())

/-- `remove_offline_validators`: retain only validators not in the offline
set, then clear `OfflineValidators`; no `MinAuthorities` check is made. -/
def remove_offline_validators (s : IrisState α β) : IrisState α β :=
  { s with
      validators := s.validators.filter (fun v => v ∉ s.offlineValidators),
      offlineValidators := [] }

/-- The per-asset body of `select_candidate_storage_providers`: when the
asset has a `QueuedStorageProviders` entry (`contains_key`), append the
candidates that are also pinners to `StorageProviders` and reset the queue
to the empty vector. -/
def promoteAsset (asset_id : β) (s : IrisState α β) : IrisState α β :=
  if asset_id ∈ s.queuedKeys then
    let candidates := s.queuedStorageProviders asset_id
    let pinned := s.pinners asset_id
    let pinner_candidate_intersection :=
      candidates.filter (fun c => c ∈ pinned)
    { s with
        storageProviders :=
          upd s.storageProviders asset_id
            (s.storageProviders asset_id ++ pinner_candidate_intersection),
        queuedStorageProviders := upd s.queuedStorageProviders asset_id [] }
  else s

/-- `select_candidate_storage_providers`: the loop over
`pallet_iris_assets::asset_ids()`; the collaborator's asset registry is
modelled from the spec (`assetIds() → set of AssetId`) as the `assetIds`
argument. -/
def select_candidate_storage_providers (assetIds : List β)
    (s : IrisState α β) : IrisState α β :=
  assetIds.foldl (fun st aid => promoteAsset aid st) s

/-- One iteration of the `mark_dead_validators` loop for account `acct`;
`participating` is the `SessionParticipation` snapshot taken at entry, while
the validator list and counters are re-read from the evolving state. -/
def deadStep (minAuthorities maxDeadSession : Nat) (participating : List α)
    (acct : α) (st : IrisState α β) : IrisState α β :=
  if acct ∈ participating then st
  else if st.unproductiveSessions acct ≤ maxDeadSession then
    { st with
        unproductiveSessions :=
          upd st.unproductiveSessions acct (st.unproductiveSessions acct + 1) }
  else if minAuthorities ≤ st.validators.length - 1 then
    { st with validators := st.validators.filter (fun v => v ≠ acct) }
  else st

/-- `mark_dead_validators`: fold the per-account step over the snapshot of
`Validators` taken at entry. -/
def mark_dead_validators (minAuthorities maxDeadSession : Nat) (era : Nat)
    (s : IrisState α β) : IrisState α β :=
  let participating := s.sessionParticipation era
  s.validators.foldl
    (fun st acct => deadStep minAuthorities maxDeadSession participating acct st) s

/-- `new_session` hook: record the era, apply offline removals, run storage
provider promotion, and return the (updated) validator list. -/
def new_session (assetIds : List β) (new_index : Nat) (s : IrisState α β) :
    IrisState α β × List α :=
  let s₁ := { s with currentEra := some new_index }
  let s₂ := remove_offline_validators s₁
  let s₃ := select_candidate_storage_providers assetIds s₂
  (s₃, s₃.validators)

/-- `end_session` hook: run the dead-validator sweep for the ending index. -/
def end_session (minAuthorities maxDeadSession : Nat) (end_index : Nat)
    (s : IrisState α β) : IrisState α β :=
  mark_dead_validators minAuthorities maxDeadSession end_index s

/-- `start_session` hook: set `ActiveEra`. -/
def start_session (start_index : Nat) (s : IrisState α β) : IrisState α β :=
  { s with activeEra := some start_index }

/-- An admin membership operation: `add_validator` or `remove_validator`. -/
inductive ValOp (α : Type)
  | addV (id : α)
  | removeV (id : α)

/-- Apply one membership operation, keeping the state the call returns
whether it succeeds or fails. -/
def applyValOp (minAuthorities : Nat) (s : IrisState α β) :
    ValOp α → IrisState α β
  | ValOp.addV id => (add_validator id s).fst
  | ValOp.removeV id => (remove_validator minAuthorities id s).fst

/-- Apply a sequence of membership operations in order. -/
def applyValOps (minAuthorities : Nat) (ops : List (ValOp α))
    (s : IrisState α β) : IrisState α β :=
  ops.foldl (applyValOp minAuthorities) s

/-- One of the three credit operations of the Reward Ledger. -/
inductive CreditOp (α β : Type)
  | addResults (assetsOk : Bool) (aid : β)
  | pinResult (aid : β) (pinner : α)
  | rpcReady (aid : β)

/-- Apply one credit operation, keeping the state the call returns. -/
def applyCreditOp (s : IrisState α β) : CreditOp α β → IrisState α β
  | CreditOp.addResults ok aid => (submit_ipfs_add_results ok aid s).fst
  | CreditOp.pinResult aid p => (submit_ipfs_pin_result aid p s).fst
  | CreditOp.rpcReady aid => (submit_rpc_ready aid s).fst

/-- Apply a sequence of credit operations in order. -/
def applyCreditOps (ops : List (CreditOp α β)) (s : IrisState α β) :
    IrisState α β :=
  ops.foldl applyCreditOp s

/-- Sum of the values of the `individual` map. -/
def sumVals (l : List (α × Nat)) : Nat :=
  (l.map Prod.snd).sum

/-- The `EraRewardPoints` documentation invariant:
`sum(i.rewardPoint in individual) = total`. -/
def rewardInv (p : EraRewardPoints α) : Prop :=
  p.total = sumVals p.individual

/-- Modelled from the spec: the dead-validator sweep stated in its words, as
the refinement counterpart of `mark_dead_validators` — every account of the
validator set absent from the era's participation list has its unproductive
counter incremented when the counter is at most `MaxDeadSession`, and is
otherwise removed from the active set, except that the removal is skipped
when the post-removal size would fall below `MinAuthorities`. -/
def markDeadSpec (minAuthorities maxDeadSession : Nat) (era : Nat)
    (s : IrisState α β) : IrisState α β :=
  s.validators.foldl
    (fun st acct =>
      if acct ∈ s.sessionParticipation era then st
      else if st.unproductiveSessions acct ≤ maxDeadSession then
        { st with
            unproductiveSessions :=
              upd st.unproductiveSessions acct (st.unproductiveSessions acct + 1) }
      else if st.validators.length - 1 < minAuthorities then st
      else { st with validators := st.validators.filter (fun v => v ≠ acct) })
    s

/-- A state where account 0 is approved but not active: obtained in the
running pallet by adding 0 and then removing it (the removal leaves the
approval in place, see the C3 theorem). -/
def sApproved : IrisState Nat Nat :=
  { emptyState with validators := [1, 2], approvedValidators := [0, 1, 2] }

/-- A genesis state with two validators, used to evaluate theorems. -/
def sTen : IrisState Nat Nat :=
  genesisState [1, 2]

/-- A state with an active era, a storage-provider pool and a queued
candidate for asset 7, used to evaluate the reward-invariant theorem. -/
def sCredit : IrisState Nat Nat :=
  { genesisState [0, 1] with
      activeEra := some 3,
      storageProviders :=
        upd (genesisState [0, 1] : IrisState Nat Nat).storageProviders 7 [0, 1],
      queuedKeys := [7],
      queuedStorageProviders :=
        upd (genesisState [0, 1] : IrisState Nat Nat).queuedStorageProviders 7 [0] }

/-- A state with a candidate queue `[0, 1]` and pinner set `[1]` for asset 5
and no active era, used to evaluate the promotion and credit theorems. -/
def sPool : IrisState Nat Nat :=
  { emptyState with
      queuedKeys := [5],
      queuedStorageProviders :=
        upd (emptyState : IrisState Nat Nat).queuedStorageProviders 5 [0, 1],
      pinners := upd (emptyState : IrisState Nat Nat).pinners 5 [1] }

/-- Filtering out an absent element leaves a list unchanged. -/
theorem filter_ne_of_not_mem (l : List α) (id : α) (h : id ∉ l) :
    l.filter (fun v => v ≠ id) = l := by
  induction l with
  | nil => rfl
  | cons a t ih =>
      rw [List.mem_cons, not_or] at h
      rw [List.filter_cons_of_pos, ih h.2]
      simp only [ne_eq, decide_eq_true_eq]
      exact fun hc => h.1 hc.symm

/-- On a duplicate-free list, filtering out one element shortens the list by
at most one. -/
theorem length_filter_ne (l : List α) (id : α) (h : l.Nodup) :
    l.length - 1 ≤ (l.filter (fun v => v ≠ id)).length := by
  induction l with
  | nil => simp
  | cons a t ih =>
      rw [List.nodup_cons] at h
      by_cases hai : a = id
      · subst hai
        rw [List.filter_cons_of_neg (by simp), filter_ne_of_not_mem t a h.1]
        simp
      · rw [List.filter_cons_of_pos (by simp [hai])]
        have := ih h.2
        simp only [List.length_cons]
        omega

/-- `promoteAsset` does not touch the validator list. -/
theorem promoteAsset_validators (aid : β) (s : IrisState α β) :
    (promoteAsset aid s).validators = s.validators := by
  unfold promoteAsset
  split <;> rfl

/-- `promoteAsset` does not touch the offline queue. -/
theorem promoteAsset_offline (aid : β) (s : IrisState α β) :
    (promoteAsset aid s).offlineValidators = s.offlineValidators := by
  unfold promoteAsset
  split <;> rfl

/-- `promoteAsset` does not touch the set of queued keys. -/
theorem promoteAsset_queuedKeys (aid : β) (s : IrisState α β) :
    (promoteAsset aid s).queuedKeys = s.queuedKeys := by
  unfold promoteAsset
  split <;> rfl

/-- `promoteAsset` does not touch the pinner sets. -/
theorem promoteAsset_pinners (aid : β) (s : IrisState α β) :
    (promoteAsset aid s).pinners = s.pinners := by
  unfold promoteAsset
  split <;> rfl

/-- Promoting one asset leaves another asset's provider pool unchanged. -/
theorem promoteAsset_sp_ne (b aid : β) (s : IrisState α β) (h : aid ≠ b) :
    (promoteAsset b s).storageProviders aid = s.storageProviders aid := by
  unfold promoteAsset
  split
  · simp [upd, h]
  · rfl

/-- Promoting one asset leaves another asset's candidate queue unchanged. -/
theorem promoteAsset_qsp_ne (b aid : β) (s : IrisState α β) (h : aid ≠ b) :
    (promoteAsset b s).queuedStorageProviders aid = s.queuedStorageProviders aid := by
  unfold promoteAsset
  split
  · simp [upd, h]
  · rfl

/-- Promoting an asset whose queue entry exists appends the pinning
candidates to its provider pool and clears its queue. -/
theorem promoteAsset_self (aid : β) (s : IrisState α β) (h : aid ∈ s.queuedKeys) :
    (promoteAsset aid s).storageProviders aid
      = s.storageProviders aid
          ++ (s.queuedStorageProviders aid).filter (fun c => c ∈ s.pinners aid)
    ∧ (promoteAsset aid s).queuedStorageProviders aid = [] := by
  unfold promoteAsset
  rw [if_pos h]
  constructor <;> simp [upd]

/-- The promotion loop does not touch the validator list. -/
theorem select_csp_validators (l : List β) (s : IrisState α β) :
    (select_candidate_storage_providers l s).validators = s.validators := by
  induction l generalizing s with
  | nil => rfl
  | cons aid t ih =>
      calc (select_candidate_storage_providers (aid :: t) s).validators
          = (select_candidate_storage_providers t (promoteAsset aid s)).validators := rfl
        _ = (promoteAsset aid s).validators := ih _
        _ = s.validators := promoteAsset_validators aid s

/-- The promotion loop does not touch the offline queue. -/
theorem select_csp_offline (l : List β) (s : IrisState α β) :
    (select_candidate_storage_providers l s).offlineValidators = s.offlineValidators := by
  induction l generalizing s with
  | nil => rfl
  | cons aid t ih =>
      calc (select_candidate_storage_providers (aid :: t) s).offlineValidators
          = (select_candidate_storage_providers t (promoteAsset aid s)).offlineValidators := rfl
        _ = (promoteAsset aid s).offlineValidators := ih _
        _ = s.offlineValidators := promoteAsset_offline aid s

/-- C8: at every new session, every account of the `OfflineValidators` queue
is removed from the active validator set with no `MinAuthorities` floor
check (the removal is an unconditional filter), and the queue is then
cleared; `new_session` itself exposes exactly this behaviour. -/
theorem C8_offline_removal_no_floor (assetIds : List β) (idx : Nat)
    (s : IrisState α β) :
    (remove_offline_validators s).validators
      = s.validators.filter (fun v => v ∉ s.offlineValidators)
    ∧ (remove_offline_validators s).offlineValidators = []
    ∧ (new_session assetIds idx s).fst.validators
      = s.validators.filter (fun v => v ∉ s.offlineValidators)
    ∧ (new_session assetIds idx s).fst.offlineValidators = [] := by
  refine ⟨rfl, rfl, ?_, ?_⟩
  · show (select_candidate_storage_providers assetIds
        (remove_offline_validators { s with currentEra := some idx })).validators = _
    rw [select_csp_validators]
    rfl
  · show (select_candidate_storage_providers assetIds
        (remove_offline_validators { s with currentEra := some idx })).offlineValidators = _
    rw [select_csp_offline]
    rfl

/-- C10: removing an account that is not in the active set succeeds whenever
the floor check `MinAuthorities ≤ |Validators| - 1` passes, leaves the
validator list unchanged and still emits the removal event; when the floor
check fails the call is rejected with `TooLowValidatorCount` and the state
is untouched. -/
theorem C10_remove_nonmember (minA : Nat) (id : α) (s : IrisState α β)
    (h : id ∉ s.validators) :
    (minA ≤ s.validators.length - 1 →
        (remove_validator minA id s).snd = Except.ok ()
        ∧ (remove_validator minA id s).fst
            = { s with events := s.events ++ [Ev.ValidatorRemovalInitiated id] })
    ∧ (s.validators.length - 1 < minA →
        (remove_validator minA id s).snd = Except.error Err.TooLowValidatorCount
        ∧ (remove_validator minA id s).fst = s) := by
  have hf := filter_ne_of_not_mem s.validators id h
  constructor
  · intro hle
    unfold remove_validator do_remove_validator unapprove_validator
    rw [if_pos hle]
    exact ⟨rfl, by rw [hf]⟩
  · intro hlt
    unfold remove_validator do_remove_validator
    rw [if_neg (by omega)]
    exact ⟨rfl, rfl⟩

/-- Witness for C10 at a concrete input: `MinAuthorities = 1`,
validators `[1, 2]`, removing the absent account `0`. -/
theorem C10_remove_nonmember_witness :
    (remove_validator 1 0 sTen).snd = Except.ok ()
    ∧ (remove_validator 1 0 sTen).fst
        = { sTen with events := sTen.events ++ [Ev.ValidatorRemovalInitiated 0] } :=
  (C10_remove_nonmember 1 0 sTen (by decide)).1 (by decide)

/-- C3: `remove_validator` does not un-mark the removed validator as
approved: `unapprove_validator` filters a local copy of `ApprovedValidators`
and never writes it back.  At `MinAuthorities = 1` with
`Validators = ApprovedValidators = [0, 1, 2]`, removing 0 succeeds and takes
it out of the active set, yet `ApprovedValidators` still contains 0. -/
theorem C3_unapprove_not_persisted :
    (0 ∈ (genesisState [0, 1, 2] : IrisState Nat Nat).validators
      ∧ 0 ∈ (genesisState [0, 1, 2] : IrisState Nat Nat).approvedValidators)
    ∧ (remove_validator 1 0 (genesisState [0, 1, 2] : IrisState Nat Nat)).snd
        = Except.ok ()
    ∧ (remove_validator 1 0 (genesisState [0, 1, 2] : IrisState Nat Nat)).fst.validators
        = [1, 2]
    ∧ (remove_validator 1 0 (genesisState [0, 1, 2] : IrisState Nat Nat)).fst.approvedValidators
        = [0, 1, 2] := by
  decide

/-- Two folds with pointwise-equal step functions agree. -/
theorem foldl_congr_fun {σ τ : Type} (f g : σ → τ → σ)
    (h : ∀ st x, f st x = g st x) (l : List τ) (init : σ) :
    l.foldl f init = l.foldl g init := by
  have hfg : f = g := funext fun st => funext fun x => h st x
  rw [hfg]

/-- C5: the dead-validator sweep run by `end_session` coincides with the
sweep as the spec states it (`markDeadSpec`): every active validator absent
from the era's participation list has its counter incremented when it is at
most `MaxDeadSession` and is otherwise removed, with the removal silently
skipped when the post-removal size would fall below `MinAuthorities`. -/
theorem C5_dead_sweep_refinement (minA maxD era : Nat) (s : IrisState α β) :
    end_session minA maxD era s = markDeadSpec minA maxD era s := by
  unfold end_session mark_dead_validators markDeadSpec
  apply foldl_congr_fun
  intro st acct
  unfold deadStep
  by_cases hp : acct ∈ s.sessionParticipation era
  · rw [if_pos hp, if_pos hp]
  · rw [if_neg hp, if_neg hp]
    by_cases hc : st.unproductiveSessions acct ≤ maxD
    · rw [if_pos hc, if_pos hc]
    · rw [if_neg hc, if_neg hc]
      by_cases hm : minA ≤ st.validators.length - 1
      · rw [if_pos hm, if_neg (Nat.not_lt.mpr hm)]
      · rw [if_neg hm, if_pos (Nat.not_le.mp hm)]

/-- Promotion leaves the provider pool and (empty) queue of an asset with an
empty candidate queue unchanged, whatever assets the loop visits. -/
theorem select_csp_stable (l : List β) (aid : β) (s : IrisState α β)
    (h : s.queuedStorageProviders aid = []) :
    (select_candidate_storage_providers l s).storageProviders aid
      = s.storageProviders aid
    ∧ (select_candidate_storage_providers l s).queuedStorageProviders aid = [] := by
  induction l generalizing s with
  | nil => exact ⟨rfl, h⟩
  | cons b t ih =>
      have hstep : (promoteAsset b s).storageProviders aid = s.storageProviders aid
          ∧ (promoteAsset b s).queuedStorageProviders aid = [] := by
        by_cases hb : aid = b
        · subst hb
          by_cases hk : aid ∈ s.queuedKeys
          · have hself := promoteAsset_self aid s hk
            rw [h] at hself
            simpa using hself
          · unfold promoteAsset
            rw [if_neg hk]
            exact ⟨rfl, h⟩
        · exact ⟨promoteAsset_sp_ne b aid s hb,
            by rw [promoteAsset_qsp_ne b aid s hb]; exact h⟩
      have ht := ih (promoteAsset b s) hstep.2
      exact ⟨by rw [show select_candidate_storage_providers (b :: t) s
            = select_candidate_storage_providers t (promoteAsset b s) from rfl,
          ht.1, hstep.1], ht.2⟩

/-- If the loop visits an asset whose queue entry exists, the net effect on
that asset is: provider pool extended by the pinning candidates, queue
cleared. -/
theorem select_csp_promotes (l : List β) (aid : β) :
    ∀ (s : IrisState α β), aid ∈ l → aid ∈ s.queuedKeys →
    (select_candidate_storage_providers l s).storageProviders aid
      = s.storageProviders aid
          ++ (s.queuedStorageProviders aid).filter (fun c => c ∈ s.pinners aid)
    ∧ (select_candidate_storage_providers l s).queuedStorageProviders aid = [] := by
  induction l with
  | nil => intro s hmem _; cases hmem
  | cons b t ih =>
      intro s hmem hkey
      by_cases hb : aid = b
      · subst hb
        have hself := promoteAsset_self aid s hkey
        have hstab := select_csp_stable t aid (promoteAsset aid s) hself.2
        refine ⟨?_, hstab.2⟩
        rw [show select_candidate_storage_providers (aid :: t) s
            = select_candidate_storage_providers t (promoteAsset aid s) from rfl,
          hstab.1, hself.1]
      · have hmem' : aid ∈ t := by
          rcases List.mem_cons.mp hmem with hh | hh
          · exact absurd hh hb
          · exact hh
        have h1 := promoteAsset_sp_ne b aid s hb
        have h2 := promoteAsset_qsp_ne b aid s hb
        have h3 := promoteAsset_pinners b s
        have h4 := promoteAsset_queuedKeys b s
        have hrec := ih (promoteAsset b s) hmem' (by rw [h4]; exact hkey)
        rw [show select_candidate_storage_providers (b :: t) s
            = select_candidate_storage_providers t (promoteAsset b s) from rfl]
        rw [h1, h2, h3] at hrec
        exact hrec

/-- C6: at a new session, for an asset (known to the assets collaborator)
whose candidate queue exists and is non-empty, promotion appends exactly the
candidates that are also pinners to `StorageProviders` and clears the
candidate queue entirely, dropping the candidates who had not pinned. -/
theorem C6_promotion_characterization (assetIds : List β) (idx : Nat)
    (s : IrisState α β) (aid : β) (h1 : aid ∈ assetIds)
    (h2 : aid ∈ s.queuedKeys) (_h3 : s.queuedStorageProviders aid ≠ []) :
    (new_session assetIds idx s).fst.storageProviders aid
      = s.storageProviders aid
          ++ (s.queuedStorageProviders aid).filter (fun c => c ∈ s.pinners aid)
    ∧ (new_session assetIds idx s).fst.queuedStorageProviders aid = [] :=
  select_csp_promotes assetIds aid
    (remove_offline_validators { s with currentEra := some idx }) h1 h2

/-- Witness for C6 at a concrete input: asset 5, candidates `[0, 1]`,
pinners `[1]` — only 1 is promoted and the queue is cleared, dropping 0. -/
theorem C6_promotion_characterization_witness :
    (new_session [5] 0 sPool).fst.storageProviders 5
      = sPool.storageProviders 5
          ++ (sPool.queuedStorageProviders 5).filter (fun c => c ∈ sPool.pinners 5)
    ∧ (new_session [5] 0 sPool).fst.queuedStorageProviders 5 = [] :=
  C6_promotion_characterization [5] 0 sPool 5 (by decide) (by decide) (by decide)

/-- C4 counterexample: with genesis `[0, 1]`, account 0 calls
`add_validator_again` for itself and is approved, so by the claim the call
should succeed — but it fails with `Duplicate`, because 0 is still in the
active set and `do_add_validator` rejects it. -/
theorem C4_counterexample_already_active :
    0 ∈ (genesisState [0, 1] : IrisState Nat Nat).approvedValidators
    ∧ (add_validator_again 0 0 (genesisState [0, 1] : IrisState Nat Nat)).snd
        = Except.error Err.Duplicate := by
  decide

/-- C4 (amended): `add_validator_again` succeeds iff the caller equals the
target, the target is approved and the target is not already active; the
failures are `BadOrigin` for a caller mismatch, `ValidatorNotApproved` for
an unapproved target, and `Duplicate` for a target already in the active
set. -/
theorem C4_rejoin_characterization (who validator_id : α) (s : IrisState α β) :
    ((add_validator_again who validator_id s).snd = Except.ok ()
      ↔ who = validator_id ∧ validator_id ∈ s.approvedValidators
          ∧ validator_id ∉ s.validators)
    ∧ (who ≠ validator_id →
        (add_validator_again who validator_id s).snd = Except.error Err.BadOrigin)
    ∧ (who = validator_id → validator_id ∉ s.approvedValidators →
        (add_validator_again who validator_id s).snd
          = Except.error Err.ValidatorNotApproved)
    ∧ (who = validator_id → validator_id ∈ s.approvedValidators →
        validator_id ∈ s.validators →
        (add_validator_again who validator_id s).snd
          = Except.error Err.Duplicate) := by
  unfold add_validator_again do_add_validator
  by_cases h1 : who = validator_id
  · by_cases h2 : validator_id ∈ s.approvedValidators
    · by_cases h3 : validator_id ∈ s.validators <;>
        simp [h1, h2, h3]
    · simp [h1, h2]
  · simp [h1]

/-- Witness for C4 at a concrete input: in `sApproved` account 0 is approved
and inactive, so its self-rejoin succeeds. -/
theorem C4_rejoin_characterization_witness :
    (add_validator_again 0 0 sApproved).snd = Except.ok () :=
  (C4_rejoin_characterization 0 0 sApproved).1.mpr (by decide)

/-- C7 counterexample: with no active era, `submit_ipfs_pin_result` for a
pinner that is not a queued candidate returns `NotACandidate`, not success,
so a credit operation invoked while `ActiveEra` is unset can still fail. -/
theorem C7_counterexample_pin_error_without_era :
    (genesisState [0, 1] : IrisState Nat Nat).activeEra = none
    ∧ (submit_ipfs_pin_result 0 7 (genesisState [0, 1] : IrisState Nat Nat)).snd
        = Except.error Err.NotACandidate := by
  decide

/-- C7 (amended): while `ActiveEra` is unset every credit operation leaves
`ErasRewardPoints` and `SessionParticipation` unchanged; the missing era is
itself never an error — `submit_rpc_ready` always succeeds, and the other
two succeed whenever their own checks pass (the collaborator call for
`submit_ipfs_add_results`, candidacy and non-pinner checks for
`submit_ipfs_pin_result`). -/
theorem C7_no_era_credit_noop (s : IrisState α β) (h : s.activeEra = none)
    (assetsOk : Bool) (aid : β) (pinner : α) :
    (submit_ipfs_add_results assetsOk aid s).fst.erasRewardPoints
        = s.erasRewardPoints
    ∧ (submit_ipfs_add_results assetsOk aid s).fst.sessionParticipation
        = s.sessionParticipation
    ∧ (submit_ipfs_pin_result aid pinner s).fst.erasRewardPoints
        = s.erasRewardPoints
    ∧ (submit_ipfs_pin_result aid pinner s).fst.sessionParticipation
        = s.sessionParticipation
    ∧ (submit_rpc_ready aid s).fst.erasRewardPoints = s.erasRewardPoints
    ∧ (submit_rpc_ready aid s).fst.sessionParticipation = s.sessionParticipation
    ∧ (submit_rpc_ready aid s).snd = Except.ok ()
    ∧ (assetsOk = true →
        (submit_ipfs_add_results assetsOk aid s).snd = Except.ok ())
    ∧ (pinner ∈ s.queuedStorageProviders aid → pinner ∉ s.pinners aid →
        (submit_ipfs_pin_result aid pinner s).snd = Except.ok ()) := by
  refine ⟨?_, ?_, ?_, ?_, ?_, ?_, ?_, ?_, ?_⟩
  · cases assetsOk <;> simp [submit_ipfs_add_results, h]
  · cases assetsOk <;> simp [submit_ipfs_add_results, h]
  · by_cases hq : pinner ∈ s.queuedStorageProviders aid <;>
      by_cases hp : pinner ∈ s.pinners aid <;>
      simp [submit_ipfs_pin_result, h, hq, hp]
  · by_cases hq : pinner ∈ s.queuedStorageProviders aid <;>
      by_cases hp : pinner ∈ s.pinners aid <;>
      simp [submit_ipfs_pin_result, h, hq, hp]
  · simp [submit_rpc_ready, h]
  · simp [submit_rpc_ready, h]
  · simp [submit_rpc_ready, h]
  · intro hok
    simp [submit_ipfs_add_results, hok, h]
  · intro hq hp
    simp [submit_ipfs_pin_result, h, hq, hp]

/-- Witness for C7 at a concrete input: in `sPool` (no active era) account 0
is a queued candidate and not yet a pinner for asset 5, so the pin report
succeeds and leaves the reward points untouched. -/
theorem C7_no_era_credit_noop_witness :
    (submit_ipfs_pin_result 5 0 sPool).snd = Except.ok ()
    ∧ (submit_ipfs_pin_result 5 0 sPool).fst.erasRewardPoints
        = sPool.erasRewardPoints :=
  ⟨(C7_no_era_credit_noop sPool rfl true 5 0).2.2.2.2.2.2.2.2
      (by decide) (by decide),
    (C7_no_era_credit_noop sPool rfl true 5 0).2.2.1⟩

/-- C9 counterexample: in `sApproved` account 0 is approved but not active;
the claim says the admin `add_validator` still "succeeds overall", but the
call returns `Duplicate`, propagated from `approve_validator` by the `?`
operator. -/
theorem C9_counterexample_add_approved_fails :
    (0 ∉ sApproved.validators ∧ 0 ∈ sApproved.approvedValidators)
    ∧ (add_validator 0 sApproved).snd = Except.error Err.Duplicate := by
  decide

/-- C9 (amended): adding a non-active but already-approved validator fails
overall with `Duplicate` (raised by the approval half of the composite
call); by the time of the failure the pallet has already appended the id to
the active set and reset its unproductive counter, so within the pallet's
own sequential execution the membership change has happened — whether it
persists is decided by the host dispatcher's transaction semantics, outside
this pallet. -/
theorem C9_add_approved_duplicate (id : α) (s : IrisState α β)
    (h1 : id ∉ s.validators) (h2 : id ∈ s.approvedValidators) :
    (add_validator id s).snd = Except.error Err.Duplicate
    ∧ (add_validator id s).fst.validators = s.validators ++ [id]
    ∧ (add_validator id s).fst.unproductiveSessions id = 0 := by
  unfold add_validator do_add_validator approve_validator
  simp [h1, h2, upd]

/-- Witness for C9 at a concrete input. -/
theorem C9_add_approved_duplicate_witness :
    (add_validator 0 sApproved).snd = Except.error Err.Duplicate
    ∧ (add_validator 0 sApproved).fst.validators = sApproved.validators ++ [0]
    ∧ (add_validator 0 sApproved).fst.unproductiveSessions 0 = 0 :=
  C9_add_approved_duplicate 0 sApproved (by decide) (by decide)

/-- `add_validator` either rejects a duplicate and leaves the active list
alone, or appends the (previously absent) id — whatever the approval half
then does. -/
theorem add_validator_validators (id : α) (s : IrisState α β) :
    (add_validator id s).fst.validators = s.validators
    ∨ (id ∉ s.validators
        ∧ (add_validator id s).fst.validators = s.validators ++ [id]) := by
  unfold add_validator do_add_validator approve_validator
  by_cases hm : id ∈ s.validators
  · left
    simp [hm]
  · right
    refine ⟨hm, ?_⟩
    by_cases ha : id ∈ s.approvedValidators <;> simp [hm, ha]

/-- `remove_validator` either rejects below the floor and leaves the active
list alone, or filters the id out with the floor check passed. -/
theorem remove_validator_validators (minA : Nat) (id : α) (s : IrisState α β) :
    (remove_validator minA id s).fst.validators = s.validators
    ∨ (minA ≤ s.validators.length - 1
        ∧ (remove_validator minA id s).fst.validators
            = s.validators.filter (fun v => v ≠ id)) := by
  unfold remove_validator do_remove_validator unapprove_validator
  by_cases hge : minA ≤ s.validators.length - 1
  · right
    exact ⟨hge, by simp [hge]⟩
  · left
    simp [hge]

/-- One admin membership operation preserves "duplicate-free and at least
`MinAuthorities` validators". -/
theorem applyValOp_inv (minA : Nat) (s : IrisState α β) (op : ValOp α)
    (h : s.validators.Nodup ∧ minA ≤ s.validators.length) :
    (applyValOp minA s op).validators.Nodup
    ∧ minA ≤ (applyValOp minA s op).validators.length := by
  cases op with
  | addV id =>
      rcases add_validator_validators id s with heq | ⟨hnm, heq⟩
      · unfold applyValOp
        rw [heq]
        exact h
      · unfold applyValOp
        rw [heq]
        constructor
        · simp [List.nodup_append, h.1, hnm]
        · rw [List.length_append]
          have := h.2
          omega
  | removeV id =>
      rcases remove_validator_validators minA id s with heq | ⟨hge, heq⟩
      · unfold applyValOp
        rw [heq]
        exact h
      · unfold applyValOp
        rw [heq]
        exact ⟨h.1.filter _,
          le_trans hge (length_filter_ne s.validators id h.1)⟩

/-- A whole sequence of admin membership operations preserves the
invariant. -/
theorem applyValOps_inv (minA : Nat) (ops : List (ValOp α)) (s : IrisState α β)
    (h : s.validators.Nodup ∧ minA ≤ s.validators.length) :
    (applyValOps minA ops s).validators.Nodup
    ∧ minA ≤ (applyValOps minA ops s).validators.length := by
  induction ops generalizing s with
  | nil => exact h
  | cons op rest ih => exact ih (applyValOp minA s op) (applyValOp_inv minA s op h)

/-- C1 counterexample: `retain` removes every copy of the id, so from the
(accepted-by-genesis) duplicated list `[0, 0, 1]` with `MinAuthorities = 2`
the removal of 0 is accepted — `3 - 1 ≥ 2` — yet the surviving set `[1]`
is below the floor. -/
theorem C1_counterexample_duplicate_genesis :
    2 ≤ (genesisState [0, 0, 1] : IrisState Nat Nat).validators.length
    ∧ (remove_validator 2 0 (genesisState [0, 0, 1] : IrisState Nat Nat)).snd
        = Except.ok ()
    ∧ (remove_validator 2 0 (genesisState [0, 0, 1] : IrisState Nat Nat)).fst.validators.length
        < 2 := by
  decide

/-- C1 (amended): from a duplicate-free genesis list of size at least
`MinAuthorities`, every sequence of `add_validator`/`remove_validator`
operations keeps the active set at `MinAuthorities` or more; and any
removal whose floor check fails is rejected with `TooLowValidatorCount`
and leaves the state completely unchanged. -/
theorem C1_min_authorities_floor (minA : Nat) (g : List α) (hnd : g.Nodup)
    (hlen : minA ≤ g.length) (ops : List (ValOp α)) :
    minA ≤ (applyValOps minA ops (genesisState g : IrisState α β)).validators.length
    ∧ ∀ (id : α) (t : IrisState α β), t.validators.length - 1 < minA →
        (remove_validator minA id t).snd = Except.error Err.TooLowValidatorCount
        ∧ (remove_validator minA id t).fst = t := by
  constructor
  · exact (applyValOps_inv minA ops (genesisState g) ⟨hnd, hlen⟩).2
  · intro id t hlt
    unfold remove_validator do_remove_validator
    rw [if_neg (by omega)]
    exact ⟨rfl, rfl⟩

/-- Witness for C1 at a concrete input: `MinAuthorities = 1`, genesis
`[0, 1]`, one accepted removal — one validator remains. -/
theorem C1_min_authorities_floor_witness :
    1 ≤ (applyValOps 1 [ValOp.removeV 0]
        (genesisState [0, 1] : IrisState Nat Nat)).validators.length :=
  (C1_min_authorities_floor 1 [0, 1] (by decide) (by decide) [ValOp.removeV 0]).1

/-- `sumVals` of a cons. -/
theorem sumVals_cons (p : α × Nat) (l : List (α × Nat)) :
    sumVals (p :: l) = p.snd + sumVals l := by
  simp [sumVals]

/-- Bumping one entry of the individual map raises the value sum by one. -/
theorem sumVals_bumpEntry (k : α) (l : List (α × Nat)) :
    sumVals (bumpEntry k l) = sumVals l + 1 := by
  induction l with
  | nil => rfl
  | cons p rest ih =>
      obtain ⟨a, n⟩ := p
      by_cases hak : a = k <;> simp [bumpEntry, hak, sumVals_cons, ih] <;> omega

/-- One credit preserves `total = sum(individual)`. -/
theorem rewardInv_bumpOne (k : α) (p : EraRewardPoints α) (h : rewardInv p) :
    rewardInv (bumpOne k p) := by
  unfold rewardInv bumpOne at *
  simp [sumVals_bumpEntry, h]

/-- Crediting a whole list of accounts preserves `total = sum(individual)`. -/
theorem rewardInv_bumpAll (ks : List α) (p : EraRewardPoints α)
    (h : rewardInv p) : rewardInv (bumpAll ks p) := by
  induction ks generalizing p with
  | nil => exact h
  | cons k rest ih => exact ih (bumpOne k p) (rewardInv_bumpOne k p h)

/-- Each of the three credit operations preserves the reward invariant at
every era/asset pair. -/
theorem applyCreditOp_rewardInv (s : IrisState α β) (op : CreditOp α β)
    (h : ∀ e a, rewardInv (s.erasRewardPoints e a)) :
    ∀ e a, rewardInv ((applyCreditOp s op).erasRewardPoints e a) := by
  intro e a
  cases op with
  | addResults assetsOk aid =>
      cases assetsOk with
      | false => exact h e a
      | true =>
          unfold applyCreditOp submit_ipfs_add_results
          cases hae : s.activeEra with
          | none => simp [hae]; exact h e a
          | some era =>
              simp only [hae]
              by_cases hc : e = era ∧ a = aid
              · simp [upd2, hc]
                exact rewardInv_bumpAll s.validators _ (h era aid)
              · simp [upd2, hc]
                exact h e a
  | pinResult aid pinner =>
      unfold applyCreditOp submit_ipfs_pin_result
      by_cases hq : pinner ∈ s.queuedStorageProviders aid
      · by_cases hp : pinner ∈ s.pinners aid
        · simp [hq, hp]
          exact h e a
        · cases hae : s.activeEra with
          | none => simp [hq, hp, hae]; exact h e a
          | some era =>
              simp only [hq, hp, hae, not_false_eq_true, if_neg, if_pos]
              by_cases hc : e = era ∧ a = aid
              · simp [hq, hp, upd2, hc]
                exact rewardInv_bumpOne pinner _ (h era aid)
              · simp [hq, hp, upd2, hc]
                exact h e a
      · simp [hq]
        exact h e a
  | rpcReady aid =>
      unfold applyCreditOp submit_rpc_ready
      cases hae : s.activeEra with
      | none => simp [hae]; exact h e a
      | some era =>
          simp only [hae]
          by_cases hc : e = era ∧ a = aid
          · simp [upd2, hc]
            exact rewardInv_bumpAll _ _ (h era aid)
          · simp [upd2, hc]
            exact h e a

/-- C2: from any state whose reward records satisfy it, the invariant
`EraRewardPoints.total = sum(EraRewardPoints.individual.values())` holds at
every era/asset pair after any sequence of the three credit operations. -/
theorem C2_total_eq_sum (s : IrisState α β)
    (h : ∀ e a, rewardInv (s.erasRewardPoints e a))
    (ops : List (CreditOp α β)) (e : Nat) (a : β) :
    rewardInv ((applyCreditOps ops s).erasRewardPoints e a) := by
  induction ops generalizing s with
  | nil => exact h e a
  | cons op rest ih =>
      exact ih (applyCreditOp s op) (applyCreditOp_rewardInv s op h)

/-- Witness for C2 at a concrete input: state `sCredit` (active era 3,
providers `[0, 1]` and candidate 0 for asset 7), crediting via all three
operations. -/
theorem C2_total_eq_sum_witness :
    rewardInv ((applyCreditOps
        [CreditOp.rpcReady 7, CreditOp.pinResult 7 0, CreditOp.addResults true 7]
        sCredit).erasRewardPoints 3 7) :=
  C2_total_eq_sum sCredit (fun _ _ => rfl)
    [CreditOp.rpcReady 7, CreditOp.pinResult 7 0, CreditOp.addResults true 7] 3 7

end Iris
